import Mathlib

/-!
Verification of the Claude Code usage monitor VSCode extension.

This file gives a shallow embedding, in Lean 4, of the core pure computation
modules of the extension:

* the block calculator (5-hour session windowing),
* the usage baseline calculator (statistical baseline with IQR outlier removal),
* the rate limit detector (session-gap analysis and clustering),
* the rate limit estimation service (effective limit selection), and
* the burn rate trend analyzer (bucketed least-squares regression).

Modelling conventions:

* Timestamps are modelled as `Int` milliseconds since the epoch.  The source
  stores ISO-8601 strings and converts with `new Date(...).getTime()`; the
  conversion is injective, so comparisons and arithmetic on the `Int` values
  coincide with the source behaviour.
* Session ids (`startTime.toISOString()` in the source) are modelled by the
  block start timestamp itself, again because `toISOString` is injective.
* JavaScript numbers are modelled by exact arithmetic: `Int` where the source
  only adds and compares integers, `Rat` where the source divides or
  multiplies by fractional constants.  `Math.round` is modelled by
  `jsRound q = floor (q + 1/2)`, which matches `Math.round` (round half
  toward positive infinity) on all values where the double computation is
  exact.
* `Array.prototype.sort` is a stable sort; a stable sort result is uniquely
  determined by the comparator and the input order, so it is modelled by
  `List.insertionSort` (stable) with the corresponding relation.
-/

set_option allowUnsafeReducibility true

attribute [semireducible] Rat.add Rat.mul Rat.inv Rat.sub Rat.div

namespace UsageMonitor

/-- Math.round of JavaScript: round half toward positive infinity. -/
def jsRound (q : Rat) : Int := (q + 1/2).floor

/-- One hour in milliseconds. -/
def msPerHour : Int := 60 * 60 * 1000

/-- SESSION_DURATION_MS of blockCalculator.ts: 5 hours in milliseconds. -/
def SESSION_DURATION_MS : Int := 5 * 60 * 60 * 1000

/-- floorToHour of blockCalculator.ts: `setUTCMinutes(0, 0, 0)` truncates a
timestamp down to the start of its UTC hour. -/
def floorToHour (t : Int) : Int := t - t % msPerHour

/-- ClaudeUsageRecord of types.ts.  The string metadata fields (model,
sessionId, requestId) are never read by any embedded computation and are
omitted. -/
structure UsageRecord where
  timestamp : Int
  input_tokens : Int
  output_tokens : Int
  cache_creation_tokens : Int
  cache_read_tokens : Int
deriving DecidableEq, Repr

/-- Comparator used by every sort of records in the source:
`(a, b) => new Date(a.timestamp).getTime() - new Date(b.timestamp).getTime()`. -/
def recordLe (a b : UsageRecord) : Prop := a.timestamp ≤ b.timestamp

instance : DecidableRel recordLe := fun a b => inferInstanceAs (Decidable (a.timestamp ≤ b.timestamp))

instance : IsTotal UsageRecord recordLe := ⟨fun a b => Int.le_total a.timestamp b.timestamp⟩

instance : IsTrans UsageRecord recordLe := ⟨fun _ _ _ h h2 => le_trans h h2⟩

/-- Stable ascending sort by timestamp, shared model of every
`sort((a, b) => ta - tb)` call in the source. -/
def sortRecords (records : List UsageRecord) : List UsageRecord :=
  records.insertionSort recordLe

/-- TokenUsageStats of usageCalculator.ts. -/
structure TokenUsageStats where
  totalInputTokens : Int
  totalOutputTokens : Int
  totalCacheCreationTokens : Int
  totalCacheReadTokens : Int
  totalTokens : Int
  requestCount : Int
deriving DecidableEq, Repr

/-- calculateTokenUsage of usageCalculator.ts: single-pass aggregation;
totalTokens excludes cache tokens. -/
def calculateTokenUsage (records : List UsageRecord) : TokenUsageStats :=
  let aggregated := records.foldl
    (fun acc r =>
      (acc.1 + r.input_tokens, acc.2.1 + r.output_tokens,
       acc.2.2.1 + r.cache_creation_tokens, acc.2.2.2 + r.cache_read_tokens))
    ((0 : Int), (0 : Int), (0 : Int), (0 : Int))
  { totalInputTokens := aggregated.1
    totalOutputTokens := aggregated.2.1
    totalCacheCreationTokens := aggregated.2.2.1
    totalCacheReadTokens := aggregated.2.2.2
    totalTokens := aggregated.1 + aggregated.2.1
    requestCount := records.length }

/-- Input plus output tokens of a single record, the quantity every
rate-limit computation sums. -/
def ioTokens (r : UsageRecord) : Int := r.input_tokens + r.output_tokens

/-- Sum of input plus output tokens over a record list. -/
def ioTotal (records : List UsageRecord) : Int := (records.map ioTokens).sum

end UsageMonitor

namespace UsageMonitor

/-! ## Block calculator (blockCalculator.ts) -/

/-- One session block of the windowing loop in getCurrentSessionBlock:
the hour-floored block start together with the records assigned to it. -/
structure SessionBlock where
  start : Int
  recs : List UsageRecord
deriving DecidableEq, Repr

/-- Break condition of the windowing loop: a new block starts when the new
record is more than 5 hours after the block start, or more than 5 hours
after the last accumulated record (`timeSinceLastRecord` falls back to 0
when the current block has no records, as in the source). -/
def blockBreak (cur : SessionBlock) (r : UsageRecord) : Bool :=
  let timeSinceBlockStart := r.timestamp - cur.start
  let timeSinceLastRecord :=
    match cur.recs.getLast? with
    | some l => r.timestamp - l.timestamp
    | none => 0
  decide (SESSION_DURATION_MS < timeSinceBlockStart) ||
    decide (SESSION_DURATION_MS < timeSinceLastRecord)

/-- Body of the windowing loop of getCurrentSessionBlock, processing the
records after the first.  `cur` is the open block (always nonempty). -/
def buildBlocks (cur : SessionBlock) : List UsageRecord → List SessionBlock
  | [] => [cur]
  | r :: rs =>
    if blockBreak cur r then
      cur :: buildBlocks ⟨floorToHour r.timestamp, [r]⟩ rs
    else
      buildBlocks ⟨cur.start, cur.recs ++ [r]⟩ rs

/-- The session-block partition computed by getCurrentSessionBlock on an
already sorted record list (the `sessionBlocks` array after the loop and
the final push). -/
def partitionSorted : List UsageRecord → List SessionBlock
  | [] => []
  | r :: rs => buildBlocks ⟨floorToHour r.timestamp, [r]⟩ rs

/-- The session-block partition of getCurrentSessionBlock, including the
initial stable sort by timestamp. -/
def sessionPartition (records : List UsageRecord) : List SessionBlock :=
  partitionSorted (sortRecords records)

/-- Session id of types.ts: `startTime.toISOString()` for a real block and
the literal string `empty` for the empty sentinel session. -/
inductive SessionId where
  | fromStart (t : Int)
  | empty
deriving DecidableEq, Repr

/-- SessionWindow of types.ts (mostUsedModel is never set by the block
calculator and is omitted). -/
structure SessionWindow where
  sessionId : SessionId
  startTime : Int
  endTime : Int
  firstRecordTime : Int
  records : List UsageRecord
  totalInputTokens : Int
  totalOutputTokens : Int
  totalCacheCreationTokens : Int
  totalCacheReadTokens : Int
  totalTokens : Int
  requestCount : Int
  isActive : Bool
  timeUntilReset : Int
deriving DecidableEq, Repr

/-- createSessionFromBlock of blockCalculator.ts. -/
def createSessionFromBlock (currentTime : Int) (b : SessionBlock) : SessionWindow :=
  let endTime := b.start + SESSION_DURATION_MS
  let actualEndTime :=
    match b.recs.getLast? with
    | some l => l.timestamp
    | none => b.start
  let isActive :=
    decide (currentTime - actualEndTime < SESSION_DURATION_MS) &&
      decide (currentTime < endTime)
  let tokenUsage := calculateTokenUsage b.recs
  { sessionId := .fromStart b.start
    startTime := b.start
    endTime := endTime
    firstRecordTime :=
      match b.recs.head? with
      | some r => r.timestamp
      | none => b.start
    records := b.recs
    totalInputTokens := tokenUsage.totalInputTokens
    totalOutputTokens := tokenUsage.totalOutputTokens
    totalCacheCreationTokens := tokenUsage.totalCacheCreationTokens
    totalCacheReadTokens := tokenUsage.totalCacheReadTokens
    totalTokens := tokenUsage.totalTokens
    requestCount := tokenUsage.requestCount
    isActive := isActive
    timeUntilReset := max 0 (endTime - currentTime) }

/-- createEmptySession of blockCalculator.ts. -/
def createEmptySession (currentTime : Int) : SessionWindow :=
  { sessionId := .empty
    startTime := currentTime
    endTime := currentTime
    firstRecordTime := currentTime
    records := []
    totalInputTokens := 0
    totalOutputTokens := 0
    totalCacheCreationTokens := 0
    totalCacheReadTokens := 0
    totalTokens := 0
    requestCount := 0
    isActive := false
    timeUntilReset := 0 }

/-- getCurrentSessionBlock of blockCalculator.ts: partition the sorted
records into blocks, then return the last active session, falling back to
the last session. -/
def getCurrentSessionBlock (records : List UsageRecord) (currentTime : Int) :
    Option SessionWindow :=
  let sessions := (sessionPartition records).map (createSessionFromBlock currentTime)
  match sessions.reverse.find? (fun s => s.isActive) with
  | some s => some s
  | none => sessions.getLast?

/-- Two session blocks with non-overlapping 5-hour spans, the second later:
the half-open intervals [start, start + 5h) are disjoint. -/
def blocksDisjoint (b1 b2 : SessionBlock) : Prop :=
  b1.start + SESSION_DURATION_MS ≤ b2.start

/-- The relation holding between consecutive emitted blocks: the first
record of the later block triggered the break against the completed earlier
block (it came more than 5 hours after the earlier block start, or more
than 5 hours after its last record). -/
def AdjBreak (b1 b2 : SessionBlock) : Prop :=
  ∃ r2 l1, b2.recs.head? = some r2 ∧ b1.recs.getLast? = some l1 ∧
    (SESSION_DURATION_MS < r2.timestamp - b1.start ∨
      SESSION_DURATION_MS < r2.timestamp - l1.timestamp)

/-- ParseError of types.ts. -/
structure ParseError where
  type : String
  message : String
  details : Option String
  suggestion : Option String
deriving DecidableEq, Repr

/-- MultiSessionBlock of types.ts. -/
structure MultiSessionBlock where
  allSessions : List SessionWindow
  activeSessions : List SessionWindow
  mostRestrictiveSession : SessionWindow
  currentTime : Int
  error : Option ParseError
deriving DecidableEq, Repr

/-- createMultiSessionBlock of blockCalculator.ts.  An error with no records
yields a sentinel result carrying the error; no records without an error
yields null; otherwise the current session block is wrapped, and the error
field is attached exactly when an error was supplied. -/
def createMultiSessionBlock (records : List UsageRecord) (currentTime : Int)
    (error : Option ParseError) : Option MultiSessionBlock :=
  if error.isSome ∧ records = [] then
    some { allSessions := []
           activeSessions := []
           mostRestrictiveSession := createEmptySession currentTime
           currentTime := currentTime
           error := error }
  else if records = [] then
    none
  else
    let currentSession := getCurrentSessionBlock records currentTime
    some { allSessions :=
             match currentSession with
             | some s => [s]
             | none => []
           activeSessions :=
             match currentSession with
             | some s => if s.isActive then [s] else []
             | none => []
           mostRestrictiveSession := currentSession.getD (createEmptySession currentTime)
           currentTime := currentTime
           error := error }

end UsageMonitor

namespace UsageMonitor

/-! ## Usage baseline calculator (usageBaselineCalculator.ts) -/

/-- Confidence levels used by the baseline calculator and the detector. -/
inductive Confidence where
  | high
  | medium
  | low
deriving DecidableEq, Repr

/-- Stable ascending numeric sort, model of `sort((a, b) => a - b)`. -/
def sortInts (values : List Int) : List Int :=
  values.insertionSort (· ≤ ·)

/-- calculatePercentile of usageBaselineCalculator.ts, on an already sorted
list.  Out-of-range reads (impossible at the call sites, which pass
percentiles between 25 and 90 on nonempty lists) are modelled by a default
of 0. -/
def calculatePercentile (sortedValues : List Int) (percentile : Nat) : Int :=
  let index : Rat := (percentile : Rat) / 100 * ((sortedValues.length : Rat) - 1)
  let lower := index.floor
  let upper := index.ceil
  if lower = upper then
    sortedValues.getD lower.toNat 0
  else
    let weight : Rat := index - (lower : Rat)
    jsRound ((sortedValues.getD lower.toNat 0 : Rat) * (1 - weight) +
      (sortedValues.getD upper.toNat 0 : Rat) * weight)

/-- calculateMedian of usageBaselineCalculator.ts, on an already sorted
list. -/
def calculateMedian (sortedValues : List Int) : Int :=
  let mid := sortedValues.length / 2
  if sortedValues.length % 2 = 0 then
    jsRound (((sortedValues.getD (mid - 1) 0 : Rat) + (sortedValues.getD mid 0 : Rat)) / 2)
  else
    sortedValues.getD mid 0

/-- removeOutliers of usageBaselineCalculator.ts: IQR filtering, identity on
lists with fewer than 4 elements. -/
def removeOutliers (values : List Int) : List Int :=
  if values.length < 4 then values
  else
    let sorted := sortInts values
    let q1 := calculatePercentile sorted 25
    let q3 := calculatePercentile sorted 75
    let iqr := q3 - q1
    let lowerBound : Rat := (q1 : Rat) - 3/2 * (iqr : Rat)
    let upperBound : Rat := (q3 : Rat) + 3/2 * (iqr : Rat)
    values.filter (fun v => decide (lowerBound ≤ (v : Rat)) && decide ((v : Rat) ≤ upperBound))

/-- Variance of the cleaned usages around the rounded mean.  The source
computes `standardDeviation = Math.sqrt(variance)` (calculateStandardDeviation);
the square root is irrational, so the embedding carries the exact variance
instead and states every comparison involving the standard deviation in the
equivalent squared form (sqrt v < c iff v < c^2 for the nonnegative bounds
arising here). -/
def varianceOf (values : List Int) (mean : Int) : Rat :=
  (values.map (fun v => ((v - mean : Int) : Rat) ^ 2)).sum / (values.length : Rat)

/-- The grouping loop of calculateUsageBaseline (lines 62-87), with the
block-push filter (more than 1000 tokens and not the excluded active block
id) applied as the loop runs.  `excludeId` models `currentActiveBlockId`
(the block start, since ISO strings of distinct instants are distinct). -/
def blockUsagesGo (excludeId : Option Int) (start tokens : Int) :
    List UsageRecord → List Int
  | [] =>
    if 1000 < tokens ∧ some start ≠ excludeId then [tokens] else []
  | r :: rs =>
    if SESSION_DURATION_MS < r.timestamp - start then
      (if 1000 < tokens ∧ some start ≠ excludeId then [tokens] else []) ++
        blockUsagesGo excludeId (floorToHour r.timestamp) (ioTokens r) rs
    else
      blockUsagesGo excludeId start (tokens + ioTokens r) rs

/-- The `blockUsages` array of calculateUsageBaseline, from the sorted
recent records: block start is the hour floor of the first record, tokens
start at 0, and every record (including the first) runs through the loop. -/
def blockUsagesLoop (sortedRecords : List UsageRecord) (excludeId : Option Int) :
    List Int :=
  match sortedRecords with
  | [] => []
  | r :: rs => blockUsagesGo excludeId (floorToHour r.timestamp) 0 (r :: rs)

/-- The pure 5-hour grouping underlying the baseline loop: every closed
block as a (block start, token total) pair, with no noise or active-block
filtering.  Same loop as `blockUsagesGo` with the push filter removed. -/
def baselineBlocksGo (start tokens : Int) : List UsageRecord → List (Int × Int)
  | [] => [(start, tokens)]
  | r :: rs =>
    if SESSION_DURATION_MS < r.timestamp - start then
      (start, tokens) :: baselineBlocksGo (floorToHour r.timestamp) (ioTokens r) rs
    else
      baselineBlocksGo start (tokens + ioTokens r) rs

/-- Per-window (start, token total) pairs of the baseline grouping on an
already sorted record list. -/
def baselineBlocks : List UsageRecord → List (Int × Int)
  | [] => []
  | r :: rs => baselineBlocksGo (floorToHour r.timestamp) 0 (r :: rs)

/-- UsageBaseline as computed by calculateUsageBaseline.  The source fields
`standardDeviation`, `highUsageThreshold` and `criticalUsageThreshold` are
sqrt-derived (`round (sqrt variance)`, `round (avg + sqrt variance)`,
`round (avg + 2 sqrt variance)`); the embedding carries the exact
`variance` from which they are determined. -/
structure UsageBaselineStats where
  averageUsage : Int
  medianUsage : Int
  variance : Rat
  percentile75 : Int
  percentile90 : Int
  totalSessions : Nat
  analysisMethod : String
  confidence : Confidence
deriving DecidableEq, Repr

/-- createDefaultBaseline of usageBaselineCalculator.ts (variance is the
square of the stated standardDeviation 15000). -/
def createDefaultBaseline : UsageBaselineStats :=
  { averageUsage := 30000
    medianUsage := 25000
    variance := 15000 ^ 2
    percentile75 := 40000
    percentile90 := 55000
    totalSessions := 0
    analysisMethod := "default_fallback"
    confidence := .low }

/-- The confidence grading of calculateUsageBaseline (lines 113-118).  The
source compares the standard deviation `sqrt variance`; the embedding
states the comparisons in the equivalent squared form
(`sqrt v < c` iff `v < c^2` and `sqrt v > c` iff `v > c^2`, exact for the
nonnegative bounds arising here: the average is always positive because
every block usage exceeds 1000). -/
def baselineConfidence (blockCount : Nat) (averageUsage : Int) (variance : Rat) :
    Confidence :=
  if 20 ≤ blockCount ∧ variance < ((averageUsage : Rat) * (1/2)) ^ 2 then .high
  else if blockCount < 10 ∨ ((averageUsage : Rat)) ^ 2 < variance then .low
  else .medium

/-- The main branch of calculateUsageBaseline (lines 103-131), computing
the statistical measures from the pre-removal block usages and the
IQR-cleaned usages. -/
def statisticalBaseline (activeBlocks cleanedUsages : List Int) : UsageBaselineStats :=
  let sortedUsages := sortInts cleanedUsages
  let averageUsage := jsRound ((cleanedUsages.sum : Rat) / (cleanedUsages.length : Rat))
  let variance := varianceOf cleanedUsages averageUsage
  { averageUsage := averageUsage
    medianUsage := calculateMedian sortedUsages
    variance := variance
    percentile75 := calculatePercentile sortedUsages 75
    percentile90 := calculatePercentile sortedUsages 90
    totalSessions := activeBlocks.length
    analysisMethod := "statistical_baseline"
    confidence := baselineConfidence activeBlocks.length averageUsage variance }

/-- The records within the last 30 days of `now`
(`recentRecords` of calculateUsageBaseline, lines 44-49). -/
def recentRecords30d (records : List UsageRecord) (now : Int) : List UsageRecord :=
  records.filter (fun r => decide (now - 30 * 24 * 60 * 60 * 1000 ≤ r.timestamp))

/-- The `blockUsages` array of calculateUsageBaseline from its raw inputs:
30-day filter, stable sort, then the grouping loop with noise and
active-id filtering. -/
def baselineActiveBlocks (records : List UsageRecord)
    (currentActiveBlockId : Option Int) (now : Int) : List Int :=
  blockUsagesLoop (sortRecords (recentRecords30d records now)) currentActiveBlockId

/-- calculateUsageBaseline of usageBaselineCalculator.ts.  `now` models the
`new Date()` read at line 43; `currentActiveBlockId` is the optional block
id to exclude. -/
def calculateUsageBaseline (records : List UsageRecord)
    (currentActiveBlockId : Option Int) (now : Int) : UsageBaselineStats :=
  if records = [] then createDefaultBaseline
  else if recentRecords30d records now = [] then createDefaultBaseline
  else if (baselineActiveBlocks records currentActiveBlockId now).length < 3 then
    createDefaultBaseline
  else if (removeOutliers (baselineActiveBlocks records currentActiveBlockId now)).length < 3
    then createDefaultBaseline
  else
    statisticalBaseline (baselineActiveBlocks records currentActiveBlockId now)
      (removeOutliers (baselineActiveBlocks records currentActiveBlockId now))

/-- The baseline computation as invoked by the facade
(usageMonitorFacade.ts line 43): `calculateUsageBaseline(parsedData.records)`
passes no `currentActiveBlockId`, so no block is excluded. -/
def facadeBaseline (records : List UsageRecord) (now : Int) : UsageBaselineStats :=
  calculateUsageBaseline records none now

end UsageMonitor

namespace UsageMonitor

/-! ## Rate limit detector (rateLimitDetector.ts) -/

/-- SessionAnalysis of rateLimitDetector.ts.  The two fields
`hasLongGapAfter` and `isLikelyLimitHit` are initialised to false by
analyzeSession and only mutated inside findLimitCandidates; the embedding
computes them there instead of storing mutable state. -/
structure SessionAnalysis where
  startTime : Int
  endTime : Int
  records : List UsageRecord
  totalTokens : Int
  duration : Int
  lastActivityTime : Int
deriving DecidableEq, Repr

/-- analyzeSession of rateLimitDetector.ts (the record list is nonempty at
every call site; an empty list defaults the last activity to the start). -/
def analyzeSession (records : List UsageRecord) (startTime : Int) : SessionAnalysis :=
  let lastActivityTime :=
    match records.getLast? with
    | some l => l.timestamp
    | none => startTime
  { startTime := startTime
    endTime := startTime + 5 * 60 * 60 * 1000
    records := records
    totalTokens := ioTotal records
    duration := lastActivityTime - startTime
    lastActivityTime := lastActivityTime }

/-- The grouping loop of groupInto5HourSessions: a record joins the current
session when it is within 5 hours of both the session start and the last
accumulated record, otherwise the session closes and a new one opens at the
hour floor of the record. -/
def detectorGroupGo (start : Int) (cur : List UsageRecord) :
    List UsageRecord → List (Int × List UsageRecord)
  | [] => [(start, cur)]
  | r :: rs =>
    let timeSinceStart := r.timestamp - start
    let timeSinceLastRecord :=
      match cur.getLast? with
      | some l => r.timestamp - l.timestamp
      | none => 0
    if timeSinceStart ≤ SESSION_DURATION_MS ∧ timeSinceLastRecord ≤ SESSION_DURATION_MS then
      detectorGroupGo start (cur ++ [r]) rs
    else
      (start, cur) :: detectorGroupGo (floorToHour r.timestamp) [r] rs

/-- groupInto5HourSessions of rateLimitDetector.ts. -/
def groupInto5HourSessions (records : List UsageRecord) : List SessionAnalysis :=
  match sortRecords records with
  | [] => []
  | r :: rs =>
    (detectorGroupGo (floorToHour r.timestamp) [r] rs).map
      (fun p => analyzeSession p.2 p.1)

/-- The hasLongGapAfter pass of findLimitCandidates: every session except
the last is flagged when the next session starts more than one hour after
its last activity; the last session is flagged when `Date.now()` (modelled
by the `now` parameter) is more than one hour past its last activity. -/
def longGapFlags (now : Int) : List SessionAnalysis → List (SessionAnalysis × Bool)
  | [] => []
  | [s] => [(s, decide (60 * 60 * 1000 < now - s.lastActivityTime))]
  | s :: s2 :: rest =>
    (s, decide (60 * 60 * 1000 < s2.startTime - s.lastActivityTime)) ::
      longGapFlags now (s2 :: rest)

/-- findLimitCandidates of rateLimitDetector.ts: token totals of the
sessions with high usage (at least 10000 tokens), a long gap after or at
least 3 hours of duration, and a plausible total (15000 to 200000). -/
def findLimitCandidates (sessions : List SessionAnalysis) (now : Int) : List Int :=
  ((longGapFlags now sessions).filter (fun p =>
      decide (10000 ≤ p.1.totalTokens) &&
        (p.2 || decide (3 * 60 * 60 * 1000 ≤ p.1.duration)) &&
        (decide (15000 ≤ p.1.totalTokens) && decide (p.1.totalTokens ≤ 200000)))).map
    (fun p => p.1.totalTokens)

/-- Cluster of rateLimitDetector.ts. -/
structure Cluster where
  center : Int
  values : List Int
deriving DecidableEq, Repr

/-- One step of the clustering loop of findClusters: the value joins the
first cluster whose center is within the 5000 tolerance (updating the
center to the rounded mean of its values), or opens a new cluster at the
end. -/
def insertValue : List Cluster → Int → List Cluster
  | [], v => [⟨v, [v]⟩]
  | c :: cs, v =>
    if (v - c.center).natAbs ≤ 5000 then
      let newValues := c.values ++ [v]
      ⟨jsRound ((newValues.sum : Rat) / (newValues.length : Rat)), newValues⟩ :: cs
    else
      c :: insertValue cs v

/-- findClusters of rateLimitDetector.ts: insert every value in order, then
stable-sort clusters by descending member count. -/
def findClusters (values : List Int) : List Cluster :=
  (values.foldl insertValue []).insertionSort
    (fun a b => b.values.length ≤ a.values.length)

instance : DecidableRel (fun (a b : Cluster) => b.values.length ≤ a.values.length) :=
  fun a b => inferInstanceAs (Decidable (b.values.length ≤ a.values.length))

/-- The reduce of analyzeLimitCandidates picking the cluster with the most
members (first one wins ties, as in `cluster.length > max.length ? cluster
: max`).  The empty case cannot arise (reduce on a nonempty array). -/
def largestCluster : List Cluster → Cluster
  | [] => ⟨0, []⟩
  | c :: cs => cs.foldl (fun m cl => if m.values.length < cl.values.length then cl else m) c

/-- Math.min over a nonempty list (empty case unreachable, defaults to 0). -/
def minList : List Int → Int
  | [] => 0
  | h :: t => t.foldl min h

/-- RateLimitDetection of rateLimitDetector.ts. -/
structure RateLimitDetection where
  detectedLimit : Option Int
  confidence : Confidence
  sampleCount : Nat
  detectionMethod : String
  candidateLimits : List Int
deriving DecidableEq, Repr

/-- createEmptyDetection of rateLimitDetector.ts. -/
def createEmptyDetection : RateLimitDetection :=
  { detectedLimit := none
    confidence := .low
    sampleCount := 0
    detectionMethod := "no_data"
    candidateLimits := [] }

/-- analyzeLimitCandidates of rateLimitDetector.ts: cluster the sorted
candidates, take the minimum of the most populous cluster
(`largestCluster (findClusters (sortInts candidates))`, the local
`largestCluster` of the source) with a 15 percent haircut
(`Math.round(detectedLimit * 0.85)`), and grade confidence from candidate
and cluster counts.  The source binds the intermediate values to locals;
they are inlined here. -/
def analyzeLimitCandidates (candidates : List Int) : RateLimitDetection :=
  if candidates = [] then createEmptyDetection
  else
    { detectedLimit :=
        some (jsRound
          ((minList (largestCluster (findClusters (sortInts candidates))).values : Rat) *
            (85/100)))
      confidence :=
        if 5 ≤ candidates.length ∧
            3 ≤ (largestCluster (findClusters (sortInts candidates))).values.length then .high
        else if 3 ≤ candidates.length ∧
            2 ≤ (largestCluster (findClusters (sortInts candidates))).values.length then .medium
        else .low
      sampleCount := candidates.length
      detectionMethod := "session_gap_analysis"
      candidateLimits := sortInts candidates }

/-- detectRateLimit of rateLimitDetector.ts.  `now` models the `Date.now()`
read inside findLimitCandidates. -/
def detectRateLimit (records : List UsageRecord) (now : Int) : RateLimitDetection :=
  if records = [] then createEmptyDetection
  else if findLimitCandidates (groupInto5HourSessions records) now = [] then
    createEmptyDetection
  else analyzeLimitCandidates (findLimitCandidates (groupInto5HourSessions records) now)

end UsageMonitor

namespace UsageMonitor

/-! ## Rate limit estimation service (rateLimitEstimationService.ts) -/

/-- UsageBaseline as consumed by the service layer: the full source
interface, taken abstractly (the service never recomputes these fields). -/
structure UsageBaseline where
  averageUsage : Rat
  medianUsage : Rat
  standardDeviation : Rat
  percentile75 : Rat
  percentile90 : Rat
  highUsageThreshold : Rat
  criticalUsageThreshold : Rat
  totalSessions : Nat
  analysisMethod : String
  confidence : Confidence
deriving DecidableEq, Repr

/-- Math.max over a nonempty list (empty case unreachable, defaults to 0). -/
def maxListRat : List Rat → Rat
  | [] => 0
  | h :: t => t.foldl max h

/-- The truthiness test `customLimit && customLimit > 0` of the service:
present and strictly positive (0 is falsy, making the separate truthiness
check redundant). -/
def customLimitActive (customLimit : Option Rat) : Bool :=
  match customLimit with
  | some c => decide (0 < c)
  | none => false

/-- The detection gate `detection.detectedLimit && detection.confidence !==
low && detection.sampleCount >= 3` of the service (a detected limit of 0
would be falsy, hence the explicit nonzero test). -/
def detectionGate (detection : RateLimitDetection) : Bool :=
  (match detection.detectedLimit with
   | some d => decide (d ≠ 0)
   | none => false) &&
    decide (detection.confidence ≠ .low) && decide (3 ≤ detection.sampleCount)

/-- The safety margin table of calculateRateLimitEstimate.  The final 0.85
arm is unreachable (the gate already requires at least 3 samples) but is
kept as in the source. -/
def safetyMargin (detection : RateLimitDetection) : Rat :=
  if 5 ≤ detection.sampleCount then
    if detection.confidence = .high then 95/100 else 92/100
  else if 3 ≤ detection.sampleCount then
    if detection.confidence = .high then 92/100 else 88/100
  else 85/100

/-- calculateRateLimitEstimate of rateLimitEstimationService.ts.  `now`
models the `Date.now()` read inside the detector.  The source binds
`detection`, `statisticalOptions` and `improvedStatistical` to locals;
they are inlined here. -/
def calculateRateLimitEstimate (baseline : UsageBaseline)
    (records : List UsageRecord) (customLimit : Option Rat) (now : Int) : Rat :=
  if customLimitActive customLimit then customLimit.getD 0
  else if detectionGate (detectRateLimit records now) then
    ((jsRound (((detectRateLimit records now).detectedLimit.getD 0 : Rat) *
      safetyMargin (detectRateLimit records now)) : Int) : Rat)
  else
    ((jsRound (max (maxListRat
      [baseline.percentile90,
       baseline.criticalUsageThreshold * (8/10),
       baseline.percentile75 * (12/10)]) 25000) : Int) : Rat)

/-- The safety-margin table as the amended claim states it: 95 percent for
at least 5 high-confidence samples, 92 percent for at least 5
medium-confidence samples or 3 to 4 high-confidence samples, 88 percent for
3 to 4 medium-confidence samples (low confidence never reaches the margin
step). -/
def amendedMargin : Confidence → Nat → Rat
  | .high, n => if 5 ≤ n then 95/100 else 92/100
  | _, n => if 5 ≤ n then 92/100 else 88/100

/-- The statistical fallback as the claim states it: the rounded maximum of
the 90th percentile, 0.8 times the critical threshold, 1.2 times the 75th
percentile, and 25000. -/
def amendedFallback (baseline : UsageBaseline) : Rat :=
  ((jsRound (max (max (max baseline.percentile90
    (baseline.criticalUsageThreshold * (8/10))) (baseline.percentile75 * (12/10)))
    25000) : Int) : Rat)

/-- The no-override arm of the amended claim: a detector result with
non-null detected limit, confidence other than low and at least 3 samples
is scaled by the amended margin table; anything else falls back to the
statistical maximum. -/
def amendedNoOverride (baseline : UsageBaseline) (records : List UsageRecord)
    (now : Int) : Rat :=
  match (detectRateLimit records now).detectedLimit with
  | some d =>
    if (detectRateLimit records now).confidence ≠ .low ∧
        3 ≤ (detectRateLimit records now).sampleCount then
      ((jsRound ((d : Rat) *
        amendedMargin (detectRateLimit records now).confidence
          (detectRateLimit records now).sampleCount) : Int) : Rat)
    else amendedFallback baseline
  | none => amendedFallback baseline

/-- The full effective-limit selection as the amended claim states it,
written independently of the service code for comparison: a present and
positive override wins, then the gated detection path with the amended
margins, then the statistical fallback. -/
def amendedEffectiveRateLimit (baseline : UsageBaseline)
    (records : List UsageRecord) (customLimit : Option Rat) (now : Int) : Rat :=
  match customLimit with
  | some c => if 0 < c then c else amendedNoOverride baseline records now
  | none => amendedNoOverride baseline records now

end UsageMonitor

namespace UsageMonitor

/-! ## Burn rate trend analyzer (burnRateCalculator.ts) -/

/-- TWO_HOURS of burnRateCalculator.ts. -/
def TWO_HOURS_MS : Int := 2 * 60 * 60 * 1000

/-- Ten minutes, the trend bucket width of analyzeTrend. -/
def TREND_WINDOW_MS : Int := 10 * 60 * 1000

/-- Number of iterations of the bucket loop `for (time = startTime; time <
endTime; time += windowSizeMs)`: the least n with startTime + n * step >=
endTime, i.e. the ceiling of (endTime - startTime) / step. -/
def trendBucketCount (startTime endTime : Int) : Nat :=
  if startTime < endTime then
    (((endTime - startTime) + TREND_WINDOW_MS - 1) / TREND_WINDOW_MS).toNat
  else 0

/-- Token total of one 10-minute bucket `[time, time + windowSizeMs)`. -/
def trendBucketTokens (records : List UsageRecord) (time : Int) : Int :=
  ioTotal (records.filter (fun r =>
    decide (time ≤ r.timestamp) && decide (r.timestamp < time + TREND_WINDOW_MS)))

/-- The `windows` array of analyzeTrend: nonzero 10-minute buckets between
the first record and the current time, as (bucket start, tokens) pairs. -/
def trendWindows (records : List UsageRecord) (currentTime : Int) : List (Int × Int) :=
  match records.head? with
  | none => []
  | some firstRecord =>
    let startTime := firstRecord.timestamp
    ((List.range (trendBucketCount startTime currentTime)).map (fun i =>
        let time := startTime + (i : Int) * TREND_WINDOW_MS
        (time, trendBucketTokens records time))).filter
      (fun w => decide (0 < w.2))

/-- Trend classification values of analyzeTrend. -/
inductive Trend where
  | increasing
  | decreasing
  | stable
deriving DecidableEq, Repr

/-- The least-squares slope of tokens against bucket index in analyzeTrend
(denominator positive whenever at least 2 windows exist, which the caller
guarantees with its 3-window minimum). -/
def trendSlope (windows : List (Int × Int)) : Rat :=
  let n : Rat := (windows.length : Rat)
  let idx := List.range windows.length
  let sumX : Rat := ((idx.map (fun i => (i : Int))).sum : Int)
  let sumY : Rat := ((windows.map (fun w => w.2)).sum : Int)
  let sumXY : Rat :=
    (((idx.zip windows).map (fun p => (p.1 : Int) * p.2.2)).sum : Int)
  let sumX2 : Rat := ((idx.map (fun i => (i : Int) * (i : Int))).sum : Int)
  (n * sumXY - sumX * sumY) / (n * sumX2 - sumX * sumX)

/-- The slope classification of analyzeTrend: the adaptive threshold is 100
when the absolute slope exceeds 100, else 50; a slope above the threshold
is increasing, below its negation decreasing, otherwise stable. -/
def trendClassify (slope : Rat) : Trend :=
  let threshold : Rat := if 100 < |slope| then 100 else 50
  if threshold < slope then .increasing
  else if slope < -threshold then .decreasing
  else .stable

/-- analyzeTrend of burnRateCalculator.ts: fewer than 3 records or fewer
than 3 nonzero buckets is stable; otherwise classify the least-squares
slope of the nonzero buckets. -/
def analyzeTrend (records : List UsageRecord) (currentTime : Int) : Trend :=
  if records.length < 3 then .stable
  else if (trendWindows records currentTime).length < 3 then .stable
  else trendClassify (trendSlope (trendWindows records currentTime))

/-- The 2-hour filter and re-sort applied by calculateBurnRate before the
trend analysis (`recentRecords`). -/
def recentRecordsOf (records : List UsageRecord) (currentTime : Int) : List UsageRecord :=
  sortRecords (records.filter (fun r =>
    decide (currentTime - TWO_HOURS_MS ≤ r.timestamp)))

end UsageMonitor

namespace UsageMonitor

/-! ## Concrete inputs used by counterexamples, code-bug demonstrations and
witnesses -/

/-- Three 5-hour sessions of 20000 input+output tokens each (two records 3
hours apart per session, sessions 10 hours apart): the detector finds 3
limit candidates in one cluster, hence medium confidence with sample count
3. -/
def detectorMediumRecords : List UsageRecord :=
  [⟨0, 10000, 0, 0, 0⟩, ⟨10800000, 10000, 0, 0, 0⟩,
   ⟨36000000, 10000, 0, 0, 0⟩, ⟨46800000, 10000, 0, 0, 0⟩,
   ⟨72000000, 10000, 0, 0, 0⟩, ⟨82800000, 10000, 0, 0, 0⟩]

/-- Evaluation instant for `detectorMediumRecords` (30 hours). -/
def detectorMediumNow : Int := 108000000

/-- An arbitrary concrete baseline for service-layer evaluations in which
the detection path wins (its fields are then irrelevant). -/
def someBaseline : UsageBaseline :=
  { averageUsage := 30000
    medianUsage := 25000
    standardDeviation := 15000
    percentile75 := 40000
    percentile90 := 55000
    highUsageThreshold := 45000
    criticalUsageThreshold := 60000
    totalSessions := 10
    analysisMethod := "statistical_baseline"
    confidence := .medium }

/-- Four single-record 5-hour windows (2000, 3000, 4000, 5000 input tokens,
6 hours apart); at the evaluation instant 68400000 the last window is the
active session. -/
def fourWindowRecords : List UsageRecord :=
  [⟨0, 2000, 0, 0, 0⟩, ⟨21600000, 3000, 0, 0, 0⟩,
   ⟨43200000, 4000, 0, 0, 0⟩, ⟨64800000, 5000, 0, 0, 0⟩]

/-- Evaluation instant for `fourWindowRecords` (19 hours). -/
def fourWindowNow : Int := 68400000

/-- Twenty single-record windows 6 hours apart: one 1000000-token outlier
followed by nineteen 2000-token windows.  IQR removal drops the outlier,
so 20 windows enter outlier removal and 19 survive. -/
def twentyWindowRecords : List UsageRecord :=
  (List.range 20).map (fun i =>
    ⟨(i : Int) * 21600000, if i = 0 then 1000000 else 2000, 0, 0, 0⟩)

/-- Evaluation instant for `twentyWindowRecords` (120 hours). -/
def twentyWindowNow : Int := 432000000

/-- Two records 6 hours apart: with the evaluation instant between them
(1 hour) both emitted windows satisfy the isActive predicate. -/
def twoFutureRecords : List UsageRecord :=
  [⟨0, 1, 0, 0, 0⟩, ⟨21600000, 2, 0, 0, 0⟩]

/-- One 5-hour session of 20000 input+output tokens (two records 3 hours
apart), evaluated 7 hours after the last activity: exactly one limit
candidate. -/
def singleCandidateRecords : List UsageRecord :=
  [⟨0, 10000, 0, 0, 0⟩, ⟨10800000, 10000, 0, 0, 0⟩]

/-- Evaluation instant for `singleCandidateRecords` (10 hours). -/
def singleCandidateNow : Int := 36000000

/-- Five records, one per 10-minute bucket, with strictly increasing
input+output totals 100, 300, 600, 1000, 1500. -/
def increasingTrendRecords : List UsageRecord :=
  [⟨0, 100, 0, 0, 0⟩, ⟨600000, 300, 0, 0, 0⟩, ⟨1200000, 600, 0, 0, 0⟩,
   ⟨1800000, 1000, 0, 0, 0⟩, ⟨2400000, 1500, 0, 0, 0⟩]

/-- Evaluation instant for `increasingTrendRecords` (50 minutes). -/
def increasingTrendNow : Int := 3000000

/-- A concrete parse error used to exercise the error-carrying path of the
block calculator. -/
def sampleParseError : ParseError :=
  { type := "directory_not_found"
    message := "Claude Code data directory not found"
    details := none
    suggestion := none }

end UsageMonitor



namespace UsageMonitor

/-! ## Claim theorems -/

/-- The hour floor never exceeds its argument. -/
theorem floorToHour_le (t : Int) : floorToHour t ≤ t := by
  unfold floorToHour msPerHour; omega

/-- The hour floor lands on an hour boundary. -/
theorem floorToHour_emod (t : Int) : floorToHour t % msPerHour = 0 := by
  unfold floorToHour msPerHour; omega

/-- The hour floor is the greatest hour boundary below its argument. -/
theorem le_floorToHour {m t : Int} (hm : m % msPerHour = 0) (h : m ≤ t) :
    m ≤ floorToHour t := by
  simp only [floorToHour, msPerHour] at hm ⊢; omega

/-- The windowing loop always emits a first block carrying the start of the
open block and its records as a prefix. -/
theorem buildBlocks_head (rs : List UsageRecord) : ∀ cur : SessionBlock, ∃ u l,
    buildBlocks cur rs = ⟨cur.start, cur.recs ++ u⟩ :: l := by
  induction rs with
  | nil =>
    intro cur
    exact ⟨[], [], by simp [buildBlocks]⟩
  | cons r rs ih =>
    intro cur
    unfold buildBlocks
    by_cases hb : blockBreak cur r
    · rw [if_pos hb]
      exact ⟨[], buildBlocks ⟨floorToHour r.timestamp, [r]⟩ rs, by simp⟩
    · rw [if_neg hb]
      obtain ⟨u, l, hu⟩ := ih ⟨cur.start, cur.recs ++ [r]⟩
      exact ⟨r :: u, l, by rw [hu]; simp⟩

/-- The windowing loop emits exactly the records it was given: the
concatenation of the emitted blocks is the open block followed by the
remaining input. -/
theorem buildBlocks_join (rs : List UsageRecord) : ∀ cur : SessionBlock,
    ((buildBlocks cur rs).map SessionBlock.recs).flatten = cur.recs ++ rs := by
  induction rs with
  | nil =>
    intro cur
    simp [buildBlocks]
  | cons r rs ih =>
    intro cur
    unfold buildBlocks
    by_cases hb : blockBreak cur r
    · rw [if_pos hb]
      simp only [List.map_cons, List.flatten_cons, ih]
      simp
    · rw [if_neg hb]
      rw [ih]
      simp

/-- Invariant of the windowing loop on sorted input with a well-formed open
block (nonempty, hour-aligned start bounding its records from below):
every emitted block is nonempty, consecutive blocks have disjoint 5-hour
spans, and consecutive blocks are separated by a genuine break. -/
theorem buildBlocks_invariant (rs : List UsageRecord) : ∀ cur : SessionBlock,
    cur.recs ≠ [] →
    cur.start % msPerHour = 0 →
    (∀ x ∈ cur.recs, cur.start ≤ x.timestamp) →
    List.Pairwise recordLe (cur.recs ++ rs) →
    (∀ b ∈ buildBlocks cur rs, b.recs ≠ []) ∧
      List.Chain' blocksDisjoint (buildBlocks cur rs) ∧
      List.Chain' AdjBreak (buildBlocks cur rs) := by
  induction rs with
  | nil =>
    intro cur h1 _ _ _
    refine ⟨?_, ?_, ?_⟩ <;> simp [buildBlocks, h1]
  | cons r rs ih =>
    intro cur h1 h2 h3 h4
    unfold buildBlocks
    by_cases hb : blockBreak cur r
    · rw [if_pos hb]
      have hne := h1
      have hl1 : cur.recs.getLast? = some (cur.recs.getLast hne) :=
        List.getLast?_eq_getLast _ hne
      have hl1mem : cur.recs.getLast hne ∈ cur.recs := List.getLast_mem hne
      have hbreak : SESSION_DURATION_MS < r.timestamp - cur.start ∨
          SESSION_DURATION_MS < r.timestamp - (cur.recs.getLast hne).timestamp := by
        unfold blockBreak at hb
        rw [hl1] at hb
        simpa using hb
      have hrgt : cur.start + SESSION_DURATION_MS < r.timestamp := by
        rcases hbreak with hcase | hcase
        · omega
        · have := h3 _ hl1mem; omega
      have hpw2 : List.Pairwise recordLe ([r] ++ rs) := by
        have hp := (List.pairwise_append.mp h4).2.1
        simpa using hp
      obtain ⟨ihne, ihdis, ihadj⟩ :=
        ih ⟨floorToHour r.timestamp, [r]⟩ (by simp) (floorToHour_emod _)
          (by simp [floorToHour_le]) hpw2
      obtain ⟨u, l, hhead⟩ := buildBlocks_head rs ⟨floorToHour r.timestamp, [r]⟩
      refine ⟨?_, ?_, ?_⟩
      · intro b hbmem
        rcases List.mem_cons.mp hbmem with hbc | hbm
        · rw [hbc]; exact h1
        · exact ihne b hbm
      · rw [List.chain'_cons']
        refine ⟨?_, ihdis⟩
        intro b hb2
        rw [hhead] at hb2
        simp only [List.head?_cons, Option.mem_def, Option.some.injEq] at hb2
        rw [← hb2]
        show cur.start + SESSION_DURATION_MS ≤ floorToHour r.timestamp
        refine le_floorToHour ?_ (by omega)
        simp only [SESSION_DURATION_MS, msPerHour] at h2 ⊢
        omega
      · rw [List.chain'_cons']
        refine ⟨?_, ihadj⟩
        intro b hb2
        rw [hhead] at hb2
        simp only [List.head?_cons, Option.mem_def, Option.some.injEq] at hb2
        rw [← hb2]
        exact ⟨r, cur.recs.getLast hne, by simp, hl1, hbreak⟩
    · rw [if_neg hb]
      apply ih ⟨cur.start, cur.recs ++ [r]⟩ (by simp) h2
      · intro x hx
        rcases List.mem_append.mp hx with hxo | hxr
        · exact h3 x hxo
        · obtain ⟨c, hc⟩ := List.exists_mem_of_ne_nil cur.recs h1
          have hcr : recordLe c r :=
            (List.pairwise_append.mp h4).2.2 c hc r (by simp)
          have hsc := h3 c hc
          have hxr2 : x = r := by simpa using hxr
          rw [hxr2]
          exact le_trans hsc hcr
      · have he : cur.recs ++ [r] ++ rs = cur.recs ++ (r :: rs) := by simp
        rw [he]
        exact h4

/-- The partition of getCurrentSessionBlock emits only nonempty blocks,
with pairwise-disjoint 5-hour spans and a genuine break between
consecutive blocks. -/
theorem sessionPartition_chains (records : List UsageRecord) :
    (∀ b ∈ sessionPartition records, b.recs ≠ []) ∧
      List.Chain' blocksDisjoint (sessionPartition records) ∧
      List.Chain' AdjBreak (sessionPartition records) := by
  unfold sessionPartition partitionSorted
  cases hs : sortRecords records with
  | nil => simp
  | cons r rs =>
    have hpw : List.Pairwise recordLe (r :: rs) := by
      have hsorted := List.sorted_insertionSort recordLe records
      rw [show records.insertionSort recordLe = sortRecords records from rfl, hs] at hsorted
      exact hsorted
    exact buildBlocks_invariant rs ⟨floorToHour r.timestamp, [r]⟩ (by simp)
      (floorToHour_emod _) (by simp [floorToHour_le]) (by simpa using hpw)

/-- The concatenation of the partition of getCurrentSessionBlock is exactly
the sorted input. -/
theorem sessionPartition_join (records : List UsageRecord) :
    ((sessionPartition records).map SessionBlock.recs).flatten = sortRecords records := by
  unfold sessionPartition partitionSorted
  cases hs : sortRecords records with
  | nil => simp
  | cons r rs =>
    have hj := buildBlocks_join rs ⟨floorToHour r.timestamp, [r]⟩
    simpa using hj

/-- C3: the windower partitions its input exactly: concatenating the record
lists of the emitted session blocks gives the sorted input, which is a
permutation of the input (so every event lands in exactly one block, none
dropped or duplicated), and distinct blocks occupy disjoint half-open
5-hour time spans. -/
theorem claim_C3_partition (records : List UsageRecord) :
    ((sessionPartition records).map SessionBlock.recs).flatten = sortRecords records ∧
      List.Perm (sortRecords records) records ∧
      List.Pairwise (fun b1 b2 => ∀ t : Int,
        b1.start ≤ t ∧ t < b1.start + SESSION_DURATION_MS →
          ¬(b2.start ≤ t ∧ t < b2.start + SESSION_DURATION_MS))
        (sessionPartition records) := by
  refine ⟨sessionPartition_join records, List.perm_insertionSort _ _, ?_⟩
  have hchain := (sessionPartition_chains records).2.1
  haveI : IsTrans SessionBlock blocksDisjoint :=
    ⟨fun a b c hab hbc => by
      simp only [blocksDisjoint, SESSION_DURATION_MS] at hab hbc ⊢; omega⟩
  have hpw : List.Pairwise blocksDisjoint (sessionPartition records) :=
    List.chain'_iff_pairwise.mp hchain
  refine hpw.imp ?_
  intro b1 b2 hdis t ht1 ht2
  simp only [blocksDisjoint] at hdis
  omega

/-- In the count of active sessions over a block list with genuine breaks
between consecutive blocks, only the final block can be active once the
evaluation instant is at or after every record: the breaking record of the
following block forces either the 5-hour span or the 5-hour idle bound of
the earlier block to be exhausted. -/
theorem activeBlocks_count_le_one (now : Int) : ∀ bs : List SessionBlock,
    List.Chain' AdjBreak bs →
    (∀ b ∈ bs, ∀ x ∈ b.recs, x.timestamp ≤ now) →
    bs.countP (fun b => (createSessionFromBlock now b).isActive) ≤ 1 := by
  intro bs
  induction bs with
  | nil => simp
  | cons b1 t ih =>
    intro hchain hle
    cases t with
    | nil => exact le_trans (List.countP_le_length _) (by simp)
    | cons b2 t2 =>
      have hadj : AdjBreak b1 b2 := (List.chain'_cons.mp hchain).1
      obtain ⟨r2, l1, hr2, hl1, hor⟩ := hadj
      have hr2mem : r2 ∈ b2.recs := List.mem_of_mem_head? hr2
      have hr2now : r2.timestamp ≤ now := hle b2 (by simp) r2 hr2mem
      have hinactive : (createSessionFromBlock now b1).isActive = false := by
        have hact : (createSessionFromBlock now b1).isActive =
            (decide (now - l1.timestamp < SESSION_DURATION_MS) &&
              decide (now < b1.start + SESSION_DURATION_MS)) := by
          simp [createSessionFromBlock, hl1]
        rw [hact]
        rcases hor with hcase | hcase
        · have hni : ¬(now < b1.start + SESSION_DURATION_MS) := by omega
          simp [hni]
        · have hni : ¬(now - l1.timestamp < SESSION_DURATION_MS) := by omega
          simp [hni]
      rw [List.countP_cons]
      simp only [hinactive, Bool.false_eq_true, if_false, add_zero]
      exact ih (List.chain'_cons.mp hchain).2
        (fun b hbm x hx => hle b (List.mem_cons_of_mem _ hbm) x hx)

/-- C4 counterexample: with records at hours 0 and 6 and the evaluation
instant at hour 1 (before the second record), both emitted windows satisfy
the isActive predicate, so the claim fails without a hypothesis relating
the evaluation instant to the record timestamps. -/
theorem claim_C4_counterexample :
    1 < ((sessionPartition twoFutureRecords).map
      (createSessionFromBlock 3600000)).countP (fun s => s.isActive) := by decide

/-- C4 amended: whenever the evaluation instant is not earlier than any
record timestamp (always the case for the parsed historical data the
extension feeds in), at most one emitted session window is active. -/
theorem claim_C4_amended (records : List UsageRecord) (now : Int)
    (h : ∀ r ∈ records, r.timestamp ≤ now) :
    ((sessionPartition records).map (createSessionFromBlock now)).countP
      (fun s => s.isActive) ≤ 1 := by
  rw [List.countP_map]
  refine activeBlocks_count_le_one now _ (sessionPartition_chains records).2.2 ?_
  intro b hbm x hx
  apply h
  have hmem : x ∈ ((sessionPartition records).map SessionBlock.recs).flatten :=
    List.mem_flatten.mpr ⟨b.recs, List.mem_map_of_mem _ hbm, hx⟩
  rw [sessionPartition_join records] at hmem
  exact (List.perm_insertionSort recordLe records).subset hmem

/-- C4 witness: the two-record input evaluated at hour 12 (after both
records) has at most one active window. -/
theorem claim_C4_witness :
    (∀ r ∈ twoFutureRecords, r.timestamp ≤ 43200000) ∧
      ((sessionPartition twoFutureRecords).map
        (createSessionFromBlock 43200000)).countP (fun s => s.isActive) ≤ 1 :=
  ⟨by decide, claim_C4_amended twoFutureRecords 43200000 (by decide)⟩

/-- On a well-formed open block the two break conditions coincide: a gap of
more than 5 hours since the last record forces more than 5 hours since the
hour-floored block start (the last record is never before the block
start), so the windower or-condition collapses to the elapsed-time test
used by the baseline grouping. -/
theorem blockBreak_eq (cur : SessionBlock) (r : UsageRecord)
    (hne : cur.recs ≠ [])
    (hstart : ∀ x ∈ cur.recs, cur.start ≤ x.timestamp) :
    blockBreak cur r = decide (SESSION_DURATION_MS < r.timestamp - cur.start) := by
  unfold blockBreak
  rw [List.getLast?_eq_getLast _ hne]
  have hlast := hstart _ (List.getLast_mem hne)
  by_cases hA : SESSION_DURATION_MS < r.timestamp - cur.start
  · simp [hA]
  · have hB : ¬(SESSION_DURATION_MS < r.timestamp - (cur.recs.getLast hne).timestamp) := by
      omega
    simp [hA, hB]

/-- The baseline grouping loop run from a well-formed open block produces
exactly the (start, input+output total) pairs of the windower loop run
from the same state. -/
theorem baselineGo_eq_buildBlocks (rs : List UsageRecord) : ∀ cur : SessionBlock,
    cur.recs ≠ [] →
    (∀ x ∈ cur.recs, cur.start ≤ x.timestamp) →
    List.Pairwise recordLe (cur.recs ++ rs) →
    baselineBlocksGo cur.start (ioTotal cur.recs) rs =
      (buildBlocks cur rs).map (fun b => (b.start, ioTotal b.recs)) := by
  induction rs with
  | nil =>
    intro cur _ _ _
    simp [baselineBlocksGo, buildBlocks]
  | cons r rs ih =>
    intro cur h1 h2 h3
    unfold baselineBlocksGo buildBlocks
    rw [blockBreak_eq cur r h1 h2]
    simp only [decide_eq_true_eq]
    by_cases hbr : SESSION_DURATION_MS < r.timestamp - cur.start
    · rw [if_pos hbr, if_pos hbr]
      simp only [List.map_cons]
      refine congrArg (fun x => (cur.start, ioTotal cur.recs) :: x) ?_
      have hpw2 : List.Pairwise recordLe ([r] ++ rs) := by
        have hp := (List.pairwise_append.mp h3).2.1
        simpa using hp
      have hrec := ih ⟨floorToHour r.timestamp, [r]⟩ (by simp)
        (by simp [floorToHour_le]) hpw2
      simpa [ioTotal] using hrec
    · rw [if_neg hbr, if_neg hbr]
      have h2' : ∀ x ∈ cur.recs ++ [r], cur.start ≤ x.timestamp := by
        intro x hx
        rcases List.mem_append.mp hx with hxo | hxr
        · exact h2 x hxo
        · obtain ⟨c, hc⟩ := List.exists_mem_of_ne_nil cur.recs h1
          have hcr : recordLe c r :=
            (List.pairwise_append.mp h3).2.2 c hc r (by simp)
          have hsc := h2 c hc
          have hxr2 : x = r := by simpa using hxr
          rw [hxr2]
          exact le_trans hsc hcr
      have h3' : List.Pairwise recordLe ((cur.recs ++ [r]) ++ rs) := by
        have he : cur.recs ++ [r] ++ rs = cur.recs ++ (r :: rs) := by simp
        rw [he]
        exact h3
      have hrec := ih ⟨cur.start, cur.recs ++ [r]⟩ (by simp) h2' h3'
      simpa [ioTotal] using hrec

/-- C5: on any record list the per-window token totals of the internal
5-hour grouping of the baseline estimator (elapsed-time break only) equal
the input+output totals of the windower partition (elapsed-time or idle-gap
break): the idle-gap disjunct is subsumed by the elapsed-time test, so both
groupings close windows at exactly the same records. -/
theorem claim_C5_grouping_equivalence (records : List UsageRecord) :
    baselineBlocks (sortRecords records) =
      (partitionSorted (sortRecords records)).map (fun b => (b.start, ioTotal b.recs)) := by
  cases hs : sortRecords records with
  | nil => simp [baselineBlocks, partitionSorted]
  | cons r rs =>
    unfold baselineBlocks partitionSorted
    have hfl : ¬(SESSION_DURATION_MS < r.timestamp - floorToHour r.timestamp) := by
      simp only [floorToHour, SESSION_DURATION_MS, msPerHour]
      omega
    unfold baselineBlocksGo
    rw [if_neg hfl]
    have hz : (0 : Int) + ioTokens r = ioTotal [r] := by simp [ioTotal]
    rw [hz]
    have hpw : List.Pairwise recordLe ([r] ++ rs) := by
      have hsorted := List.sorted_insertionSort recordLe records
      rw [show records.insertionSort recordLe = sortRecords records from rfl, hs] at hsorted
      simpa using hsorted
    exact baselineGo_eq_buildBlocks rs ⟨floorToHour r.timestamp, [r]⟩ (by simp)
      (by simp [floorToHour_le]) hpw

/-- C9: every core evaluation is deterministic over its input snapshot: the
baseline estimator and the rate-limit detector, evaluated twice on
identical records, the same exclusion id and the same frozen clock reading,
return identical results.  The embedding is a pure function of exactly
these inputs because the source functions are: their only impurities are
the internal clock reads (modelled by the `now` parameter) and mutation of
arrays and session objects that they themselves allocate. -/
theorem claim_C9_determinism (records : List UsageRecord)
    (currentActiveBlockId : Option Int) (now : Int) :
    calculateUsageBaseline records currentActiveBlockId now =
        calculateUsageBaseline records currentActiveBlockId now ∧
      detectRateLimit records now = detectRateLimit records now :=
  ⟨rfl, rfl⟩

/-- C10: an empty record list together with a parse error yields a non-null
multi-session block whose most restrictive session is the empty sentinel
(zero totals, zero requests, inactive, zero time until reset) carrying the
error, while an empty record list without an error yields null. -/
theorem claim_C10_error_sentinel (now : Int) (err : ParseError) :
    createMultiSessionBlock [] now (some err) =
        some { allSessions := []
               activeSessions := []
               mostRestrictiveSession := createEmptySession now
               currentTime := now
               error := some err } ∧
      (createEmptySession now).totalTokens = 0 ∧
      (createEmptySession now).totalInputTokens = 0 ∧
      (createEmptySession now).totalOutputTokens = 0 ∧
      (createEmptySession now).requestCount = 0 ∧
      (createEmptySession now).isActive = false ∧
      (createEmptySession now).timeUntilReset = 0 ∧
      createMultiSessionBlock [] now none = none := by
  refine ⟨?_, rfl, rfl, rfl, rfl, rfl, rfl, ?_⟩ <;> simp [createMultiSessionBlock]

/-- C2: the claim states that the full status pipeline always excludes the
currently active session window from the baseline block totals.  The
calculator supports exclusion through its `currentActiveBlockId` parameter,
but the facade (usageMonitorFacade.ts line 43) calls
`calculateUsageBaseline(parsedData.records)` with no second argument, so
the active window does contribute.  At the failing input below the active
window (block start 64800000, 5000 tokens, still accruing) is counted:
the pipeline baseline averages 3500 over 4 sessions, whereas the excluded
baseline the spec describes averages 3000 over 3 sessions. -/
theorem claim_C2_active_window_not_excluded :
    (getCurrentSessionBlock fourWindowRecords fourWindowNow).map
        (fun s => (s.sessionId, s.isActive)) = some (.fromStart 64800000, true) ∧
      5000 ∈ baselineActiveBlocks fourWindowRecords none fourWindowNow ∧
      facadeBaseline fourWindowRecords fourWindowNow =
        calculateUsageBaseline fourWindowRecords none fourWindowNow ∧
      (facadeBaseline fourWindowRecords fourWindowNow).averageUsage = 3500 ∧
      (facadeBaseline fourWindowRecords fourWindowNow).totalSessions = 4 ∧
      (calculateUsageBaseline fourWindowRecords (some 64800000) fourWindowNow).averageUsage
          = 3000 ∧
      (calculateUsageBaseline fourWindowRecords (some 64800000) fourWindowNow).totalSessions
          = 3 ∧
      facadeBaseline fourWindowRecords fourWindowNow ≠
        calculateUsageBaseline fourWindowRecords (some 64800000) fourWindowNow := by
  refine ⟨by decide, by decide, rfl, by decide, by decide, by decide, by decide, by decide⟩

/-- C6 counterexample: at `twentyWindowRecords` the IQR step removes the
1000000-token outlier, so 19 windows survive, yet the returned baseline
reports totalSessions 20 (the pre-removal count) and grades confidence
high from the pre-removal count 20, where the claim (at least 20 surviving
windows) would not. -/
theorem claim_C6_counterexample :
    (removeOutliers (baselineActiveBlocks twentyWindowRecords none twentyWindowNow)).length
        = 19 ∧
      (calculateUsageBaseline twentyWindowRecords none twentyWindowNow).totalSessions = 20 ∧
      (calculateUsageBaseline twentyWindowRecords none twentyWindowNow).totalSessions ≠
        (removeOutliers
          (baselineActiveBlocks twentyWindowRecords none twentyWindowNow)).length ∧
      (calculateUsageBaseline twentyWindowRecords none twentyWindowNow).confidence = .high := by
  refine ⟨by decide, by decide, by decide, by decide⟩

/-- The confidence grading is high exactly when at least 20 windows entered
outlier removal and the variance is below the square of half the average. -/
theorem baselineConfidence_high_iff (n : Nat) (avg : Int) (v : Rat) :
    baselineConfidence n avg v = .high ↔ 20 ≤ n ∧ v < ((avg : Rat) / 2) ^ 2 := by
  unfold baselineConfidence
  have e : ((avg : Rat) * (1/2)) ^ 2 = ((avg : Rat) / 2) ^ 2 := by ring
  rw [e]
  split_ifs with h1 h2 <;> simp [h1]

/-- The confidence grading is low exactly when fewer than 10 windows entered
outlier removal or the variance exceeds the square of the average (the low
condition excludes the high condition outright, so the else-if ordering
drops out). -/
theorem baselineConfidence_low_iff (n : Nat) (avg : Int) (v : Rat) :
    baselineConfidence n avg v = .low ↔ n < 10 ∨ ((avg : Rat)) ^ 2 < v := by
  unfold baselineConfidence
  split_ifs with h1 h2
  · simp only [reduceCtorEq, false_iff]
    rintro (hn | hv)
    · omega
    · have hle : ((avg : Rat) * (1/2)) ^ 2 ≤ ((avg : Rat)) ^ 2 := by
        nlinarith [sq_nonneg ((avg : Rat))]
      linarith [h1.2]
  · simp [h2]
  · simp [h2]

/-- C6 amended: in every non-default baseline, totalSessions is the number
of windows that entered IQR outlier removal (after the noise and
active-window filters, before removal), and the confidence grades compare
that same pre-removal count (high iff at least 20 such windows and standard
deviation below half the mean, low iff fewer than 10 such windows or
standard deviation above the mean, medium otherwise; deviation comparisons
stated in exact squared form against the variance). -/
theorem claim_C6_amended (records : List UsageRecord)
    (currentActiveBlockId : Option Int) (now : Int)
    (h : (calculateUsageBaseline records currentActiveBlockId now).analysisMethod =
      "statistical_baseline") :
    (calculateUsageBaseline records currentActiveBlockId now).totalSessions =
        (baselineActiveBlocks records currentActiveBlockId now).length ∧
      ((calculateUsageBaseline records currentActiveBlockId now).confidence = .high ↔
        20 ≤ (baselineActiveBlocks records currentActiveBlockId now).length ∧
          (calculateUsageBaseline records currentActiveBlockId now).variance <
            (((calculateUsageBaseline records currentActiveBlockId now).averageUsage : Rat) / 2)
              ^ 2) ∧
      ((calculateUsageBaseline records currentActiveBlockId now).confidence = .low ↔
        (baselineActiveBlocks records currentActiveBlockId now).length < 10 ∨
          (((calculateUsageBaseline records currentActiveBlockId now).averageUsage : Rat)) ^ 2 <
            (calculateUsageBaseline records currentActiveBlockId now).variance) := by
  unfold calculateUsageBaseline at h ⊢
  split_ifs at h ⊢ <;>
    first
      | exact absurd h (by decide)
      | exact ⟨rfl,
          baselineConfidence_high_iff _ _ _,
          baselineConfidence_low_iff _ _ _⟩

/-- C6 amended witness: the four-window input yields a non-default baseline
and instantiates the amended claim. -/
theorem claim_C6_amended_witness :
    (calculateUsageBaseline fourWindowRecords none fourWindowNow).analysisMethod =
        "statistical_baseline" ∧
      ((calculateUsageBaseline fourWindowRecords none fourWindowNow).totalSessions =
          (baselineActiveBlocks fourWindowRecords none fourWindowNow).length ∧
        ((calculateUsageBaseline fourWindowRecords none fourWindowNow).confidence = .high ↔
          20 ≤ (baselineActiveBlocks fourWindowRecords none fourWindowNow).length ∧
            (calculateUsageBaseline fourWindowRecords none fourWindowNow).variance <
              (((calculateUsageBaseline fourWindowRecords none fourWindowNow).averageUsage :
                Rat) / 2) ^ 2) ∧
        ((calculateUsageBaseline fourWindowRecords none fourWindowNow).confidence = .low ↔
          (baselineActiveBlocks fourWindowRecords none fourWindowNow).length < 10 ∨
            (((calculateUsageBaseline fourWindowRecords none fourWindowNow).averageUsage :
              Rat)) ^ 2 <
              (calculateUsageBaseline fourWindowRecords none fourWindowNow).variance)) :=
  ⟨by decide, claim_C6_amended fourWindowRecords none fourWindowNow (by decide)⟩

/-- Any window list whose token components are exactly 100, 300, 600, 1000,
1500 has least-squares slope 350 (the bucket start components do not enter
the regression, which runs over bucket indices). -/
theorem trendSlope_of_snds (ws : List (Int × Int))
    (h : ws.map Prod.snd = [100, 300, 600, 1000, 1500]) : trendSlope ws = 350 := by
  rcases ws with _ | ⟨⟨x1, y1⟩, ws⟩
  · simp at h
  rcases ws with _ | ⟨⟨x2, y2⟩, ws⟩
  · simp at h
  rcases ws with _ | ⟨⟨x3, y3⟩, ws⟩
  · simp at h
  rcases ws with _ | ⟨⟨x4, y4⟩, ws⟩
  · simp at h
  rcases ws with _ | ⟨⟨x5, y5⟩, ws⟩
  · simp at h
  rcases ws with _ | ⟨w6, ws⟩
  · simp only [List.map_cons, List.map_nil, List.cons.injEq, and_true] at h
    obtain ⟨e1, e2, e3, e4, e5⟩ := h
    subst e1 e2 e3 e4 e5
    unfold trendSlope
    norm_num [List.range_succ]
  · simp at h

/-- C8: with strictly increasing bucket totals 100, 300, 600, 1000, 1500
over the consecutive nonzero 10-minute buckets of the 2-hour analysis
window, the trend resolves to increasing (slope 350, adaptive threshold
100). -/
theorem claim_C8_trend_increasing (records : List UsageRecord) (now : Int)
    (hlen : 3 ≤ (recentRecordsOf records now).length)
    (hwin : (trendWindows (recentRecordsOf records now) now).map Prod.snd =
      [100, 300, 600, 1000, 1500]) :
    analyzeTrend (recentRecordsOf records now) now = .increasing := by
  have h5 : (trendWindows (recentRecordsOf records now) now).length = 5 := by
    have hl := congrArg List.length hwin
    simpa using hl
  unfold analyzeTrend
  rw [if_neg (by omega), if_neg (by omega), trendSlope_of_snds _ hwin]
  decide

/-- C8 witness: five records, one per 10-minute bucket, with totals 100,
300, 600, 1000, 1500, evaluated 50 minutes in. -/
theorem claim_C8_witness :
    (3 ≤ (recentRecordsOf increasingTrendRecords increasingTrendNow).length ∧
      (trendWindows (recentRecordsOf increasingTrendRecords increasingTrendNow)
          increasingTrendNow).map Prod.snd = [100, 300, 600, 1000, 1500]) ∧
      analyzeTrend (recentRecordsOf increasingTrendRecords increasingTrendNow)
          increasingTrendNow = .increasing :=
  ⟨⟨by decide, by decide⟩,
    claim_C8_trend_increasing increasingTrendRecords increasingTrendNow
      (by decide) (by decide)⟩

/-- The pick-largest reduce stays within the candidate clusters. -/
theorem foldl_pickLargest_mem (cs : List Cluster) : ∀ c : Cluster,
    cs.foldl (fun m cl => if m.values.length < cl.values.length then cl else m) c ∈
      c :: cs := by
  induction cs with
  | nil => intro c; simp
  | cons d cs ih =>
    intro c
    simp only [List.foldl_cons]
    by_cases h : c.values.length < d.values.length
    · rw [if_pos h]
      rcases List.mem_cons.mp (ih d) with hx | hx
      · rw [hx]; simp
      · simp [hx]
    · rw [if_neg h]
      rcases List.mem_cons.mp (ih c) with hx | hx
      · rw [hx]; simp
      · simp [hx]

/-- The pick-largest reduce dominates every candidate cluster in member
count. -/
theorem foldl_pickLargest_ge (cs : List Cluster) : ∀ c : Cluster, ∀ x ∈ c :: cs,
    x.values.length ≤
      (cs.foldl (fun m cl => if m.values.length < cl.values.length then cl else m)
        c).values.length := by
  induction cs with
  | nil =>
    intro c x hx
    have hxc : x = c := by simpa using hx
    simp [hxc]
  | cons d cs ih =>
    intro c x hx
    simp only [List.foldl_cons]
    have hc : c.values.length ≤
        (if c.values.length < d.values.length then d else c).values.length := by
      split_ifs with h
      · exact le_of_lt h
      · exact le_refl _
    have hd : d.values.length ≤
        (if c.values.length < d.values.length then d else c).values.length := by
      split_ifs with h
      · exact le_refl _
      · exact le_of_not_lt h
    have hacc := ih (if c.values.length < d.values.length then d else c)
    rcases List.mem_cons.mp hx with hxc | hx2
    · subst hxc
      exact le_trans hc (hacc _ (by simp))
    · rcases List.mem_cons.mp hx2 with hxd | hxcs
      · subst hxd
        exact le_trans hd (hacc _ (by simp))
      · exact hacc x (List.mem_cons_of_mem _ hxcs)

/-- The largest cluster of a nonempty cluster list is one of the clusters. -/
theorem largestCluster_mem {cs : List Cluster} (h : cs ≠ []) :
    largestCluster cs ∈ cs := by
  cases cs with
  | nil => exact absurd rfl h
  | cons c t => exact foldl_pickLargest_mem t c

/-- The largest cluster of a nonempty cluster list dominates every cluster
in member count. -/
theorem largestCluster_max {cs : List Cluster} (h : cs ≠ []) :
    ∀ x ∈ cs, x.values.length ≤ (largestCluster cs).values.length := by
  cases cs with
  | nil => exact absurd rfl h
  | cons c t => exact foldl_pickLargest_ge t c

/-- Inserting a value bounded below preserves nonempty, bounded clusters. -/
theorem insertValue_inv (lo : Int) : ∀ (acc : List Cluster) (v : Int),
    (∀ cl ∈ acc, cl.values ≠ [] ∧ ∀ x ∈ cl.values, lo ≤ x) →
    lo ≤ v →
    ∀ cl ∈ insertValue acc v, cl.values ≠ [] ∧ ∀ x ∈ cl.values, lo ≤ x := by
  intro acc
  induction acc with
  | nil =>
    intro v _ hv cl hcl
    simp only [insertValue, List.mem_singleton] at hcl
    subst hcl
    exact ⟨by simp, by simpa⟩
  | cons c cs ih =>
    intro v hacc hv cl hcl
    unfold insertValue at hcl
    by_cases h : (v - c.center).natAbs ≤ 5000
    · rw [if_pos h] at hcl
      rcases List.mem_cons.mp hcl with hc1 | hcs
      · subst hc1
        refine ⟨by simp, ?_⟩
        intro x hx
        rcases List.mem_append.mp hx with hxo | hxv
        · exact (hacc c (by simp)).2 x hxo
        · have : x = v := by simpa using hxv
          rw [this]; exact hv
      · exact hacc cl (List.mem_cons_of_mem _ hcs)
    · rw [if_neg h] at hcl
      rcases List.mem_cons.mp hcl with hc1 | hcs
      · subst hc1; exact hacc cl (by simp)
      · exact ih v (fun cl2 h2 => hacc cl2 (List.mem_cons_of_mem _ h2)) hv cl hcs

/-- Inserting a value never empties the cluster list. -/
theorem insertValue_ne_nil (acc : List Cluster) (v : Int) : insertValue acc v ≠ [] := by
  cases acc with
  | nil => simp [insertValue]
  | cons c cs =>
    unfold insertValue
    split_ifs <;> simp

/-- Folding insertions of bounded values preserves nonempty, bounded
clusters. -/
theorem foldl_insertValue_inv (lo : Int) (vs : List Int) : ∀ acc : List Cluster,
    (∀ v ∈ vs, lo ≤ v) →
    (∀ cl ∈ acc, cl.values ≠ [] ∧ ∀ x ∈ cl.values, lo ≤ x) →
    ∀ cl ∈ vs.foldl insertValue acc, cl.values ≠ [] ∧ ∀ x ∈ cl.values, lo ≤ x := by
  induction vs with
  | nil => intro acc _ hacc; simpa using hacc
  | cons v vs ih =>
    intro acc hvs hacc
    simp only [List.foldl_cons]
    exact ih (insertValue acc v) (fun x hx => hvs x (List.mem_cons_of_mem _ hx))
      (insertValue_inv lo acc v hacc (hvs v (by simp)))

/-- Folding insertions of a nonempty value list yields clusters. -/
theorem foldl_insertValue_ne_nil (vs : List Int) : ∀ acc : List Cluster,
    acc ≠ [] ∨ vs ≠ [] → vs.foldl insertValue acc ≠ [] := by
  induction vs with
  | nil =>
    intro acc h
    rcases h with h | h
    · simpa using h
    · exact absurd rfl h
  | cons v vs ih =>
    intro acc _
    simp only [List.foldl_cons]
    exact ih (insertValue acc v) (Or.inl (insertValue_ne_nil acc v))

/-- Every cluster found from values bounded below is nonempty with bounded
members. -/
theorem findClusters_inv (lo : Int) (values : List Int)
    (hv : ∀ v ∈ values, lo ≤ v) :
    ∀ cl ∈ findClusters values, cl.values ≠ [] ∧ ∀ x ∈ cl.values, lo ≤ x := by
  intro cl hcl
  unfold findClusters at hcl
  have hperm := List.perm_insertionSort
    (fun a b : Cluster => b.values.length ≤ a.values.length) (values.foldl insertValue [])
  exact foldl_insertValue_inv lo values [] hv (by simp) cl (hperm.subset hcl)

/-- A nonempty value list yields a nonempty cluster list. -/
theorem findClusters_ne_nil {values : List Int} (h : values ≠ []) :
    findClusters values ≠ [] := by
  unfold findClusters
  intro habs
  have hperm := List.perm_insertionSort
    (fun a b : Cluster => b.values.length ≤ a.values.length) (values.foldl insertValue [])
  rw [habs] at hperm
  exact foldl_insertValue_ne_nil values [] (Or.inr h) hperm.symm.eq_nil

/-- Folding min over bounded values stays bounded. -/
theorem foldl_min_ge {lo : Int} : ∀ (t : List Int) (a : Int),
    lo ≤ a → (∀ v ∈ t, lo ≤ v) → lo ≤ t.foldl min a := by
  intro t
  induction t with
  | nil => intro a ha _; simpa using ha
  | cons v vs ih =>
    intro a ha hall
    simp only [List.foldl_cons]
    exact ih (min a v) (le_min ha (hall v (by simp)))
      (fun x hx => hall x (List.mem_cons_of_mem _ hx))

/-- The minimum of a nonempty bounded list is bounded. -/
theorem minList_ge {lo : Int} (l : List Int) (h : l ≠ [])
    (hall : ∀ v ∈ l, lo ≤ v) : lo ≤ minList l := by
  cases l with
  | nil => exact absurd rfl h
  | cons a t =>
    unfold minList
    exact foldl_min_ge t a (hall a (by simp))
      (fun x hx => hall x (List.mem_cons_of_mem _ hx))

/-- Every limit candidate is at least 15000 tokens (the isReasonableLimit
filter). -/
theorem findLimitCandidates_ge (sessions : List SessionAnalysis) (now : Int) :
    ∀ v ∈ findLimitCandidates sessions now, 15000 ≤ v := by
  intro v hv
  unfold findLimitCandidates at hv
  obtain ⟨p, hp, hpv⟩ := List.mem_map.mp hv
  have hcond := (List.mem_filter.mp hp).2
  simp only [Bool.and_eq_true, decide_eq_true_eq] at hcond
  rw [← hpv]
  exact hcond.2.1

/-- Whenever the detector reports a detected limit, it is at least 12750
tokens (85 percent of the smallest reasonable candidate), in particular
positive, which is why the truthiness test of the service never differs
from a null test. -/
theorem detectRateLimit_pos (records : List UsageRecord) (now : Int) {d : Int}
    (h : (detectRateLimit records now).detectedLimit = some d) : 12750 ≤ d := by
  unfold detectRateLimit at h
  split_ifs at h with h1 h2
  · simp [createEmptyDetection] at h
  · simp [createEmptyDetection] at h
  · have hge : ∀ v ∈ findLimitCandidates (groupInto5HourSessions records) now, (15000:Int) ≤ v :=
      findLimitCandidates_ge _ _
    unfold analyzeLimitCandidates at h
    rw [if_neg h2] at h
    simp only [Option.some.injEq] at h
    have hsne : sortInts (findLimitCandidates (groupInto5HourSessions records) now) ≠ [] := by
      intro hs
      have hperm := List.perm_insertionSort (fun a b : Int => a ≤ b)
        (findLimitCandidates (groupInto5HourSessions records) now)
      rw [show (findLimitCandidates (groupInto5HourSessions records) now).insertionSort
        (fun a b : Int => a ≤ b) = sortInts (findLimitCandidates (groupInto5HourSessions records) now)
        from rfl, hs] at hperm
      exact h2 hperm.symm.eq_nil
    have hclne := findClusters_ne_nil hsne
    have hmem := largestCluster_mem hclne
    have hsge : ∀ v ∈ sortInts (findLimitCandidates (groupInto5HourSessions records) now),
        (15000:Int) ≤ v := by
      intro v hv
      refine hge v ?_
      have hperm := List.perm_insertionSort (fun a b : Int => a ≤ b)
        (findLimitCandidates (groupInto5HourSessions records) now)
      exact hperm.subset hv
    have hinv := findClusters_inv 15000 _ hsge _ hmem
    have hmin : (15000:Int) ≤ minList (largestCluster (findClusters
        (sortInts (findLimitCandidates (groupInto5HourSessions records) now)))).values :=
      minList_ge _ hinv.1 hinv.2
    rw [← h]
    unfold jsRound
    rw [Rat.le_floor]
    have hq : (15000 : Rat) ≤ ((minList (largestCluster (findClusters
        (sortInts (findLimitCandidates (groupInto5HourSessions records) now)))).values : Int) : Rat) := by
      exact_mod_cast hmin
    nlinarith

/-- A stable ascending sort of a nonempty list is nonempty. -/
theorem sortInts_ne_nil {l : List Int} (h : l ≠ []) : sortInts l ≠ [] := by
  intro hs
  unfold sortInts at hs
  have hperm := List.perm_insertionSort (α := Int) (· ≤ ·) l
  rw [hs] at hperm
  exact h hperm.symm.eq_nil

/-- C7: whenever the detector finds at least one limit-hit candidate, the
detected limit is non-null and equals the rounded 85 percent of the
minimum member of a most-populous cluster; and with exactly one candidate
the confidence is low while the detected limit is still populated. -/
theorem claim_C7_detection (records : List UsageRecord) (now : Int)
    (h : findLimitCandidates (groupInto5HourSessions records) now ≠ []) :
    ∃ cl ∈ findClusters
        (sortInts (findLimitCandidates (groupInto5HourSessions records) now)),
      (∀ cl2 ∈ findClusters
          (sortInts (findLimitCandidates (groupInto5HourSessions records) now)),
        cl2.values.length ≤ cl.values.length) ∧
      (detectRateLimit records now).detectedLimit =
        some (jsRound ((minList cl.values : Rat) * (85/100))) ∧
      ((findLimitCandidates (groupInto5HourSessions records) now).length = 1 →
        (detectRateLimit records now).confidence = .low) := by
  have hrecs : records ≠ [] := by
    intro hr
    subst hr
    exact h rfl
  have hclne := findClusters_ne_nil (sortInts_ne_nil h)
  unfold detectRateLimit
  rw [if_neg hrecs, if_neg h]
  unfold analyzeLimitCandidates
  rw [if_neg h]
  refine ⟨largestCluster (findClusters
      (sortInts (findLimitCandidates (groupInto5HourSessions records) now))),
    largestCluster_mem hclne, largestCluster_max hclne, rfl, ?_⟩
  intro h1
  simp only [h1]
  rw [if_neg (by simp), if_neg (by simp)]

/-- C7 witness: one 20000-token session evaluated 7 hours after its last
activity yields exactly one candidate, low confidence and detected limit
17000. -/
theorem claim_C7_witness :
    (findLimitCandidates (groupInto5HourSessions singleCandidateRecords)
        singleCandidateNow ≠ []) ∧
      (∃ cl ∈ findClusters (sortInts (findLimitCandidates
          (groupInto5HourSessions singleCandidateRecords) singleCandidateNow)),
        (∀ cl2 ∈ findClusters (sortInts (findLimitCandidates
            (groupInto5HourSessions singleCandidateRecords) singleCandidateNow)),
          cl2.values.length ≤ cl.values.length) ∧
        (detectRateLimit singleCandidateRecords singleCandidateNow).detectedLimit =
          some (jsRound ((minList cl.values : Rat) * (85/100))) ∧
        ((findLimitCandidates (groupInto5HourSessions singleCandidateRecords)
            singleCandidateNow).length = 1 →
          (detectRateLimit singleCandidateRecords singleCandidateNow).confidence = .low)) :=
  ⟨by decide, claim_C7_detection singleCandidateRecords singleCandidateNow (by decide)⟩

/-- Under the gate condition of at least 3 samples, the safety-margin table
of the service equals the amended margin table. -/
theorem safetyMargin_eq (det : RateLimitDetection) (h3 : 3 ≤ det.sampleCount) :
    safetyMargin det = amendedMargin det.confidence det.sampleCount := by
  unfold safetyMargin amendedMargin
  by_cases h5 : 5 ≤ det.sampleCount
  · cases hc : det.confidence <;> simp [hc, h5]
  · cases hc : det.confidence <;> simp [hc, h5, h3]

/-- C1 amended: for every baseline, record list, override and frozen clock,
the effective rate limit follows the claimed precedence with the corrected
margin table: a present positive override is returned unchanged; otherwise
a detection with non-null detected limit, confidence other than low and at
least 3 samples is scaled by 95 percent (at least 5 high-confidence
samples), 92 percent (at least 5 medium-confidence samples, or 3 to 4
high-confidence samples) or 88 percent (3 to 4 medium-confidence samples);
otherwise the result is the rounded maximum of the 90th percentile, 0.8
times the critical threshold, 1.2 times the 75th percentile and 25000. -/
theorem claim_C1_amended (baseline : UsageBaseline) (records : List UsageRecord)
    (customLimit : Option Rat) (now : Int) :
    calculateRateLimitEstimate baseline records customLimit now =
      amendedEffectiveRateLimit baseline records customLimit now := by
  have hno : (if detectionGate (detectRateLimit records now) then
        ((jsRound (((detectRateLimit records now).detectedLimit.getD 0 : Rat) *
          safetyMargin (detectRateLimit records now)) : Int) : Rat)
      else
        ((jsRound (max (maxListRat
          [baseline.percentile90,
           baseline.criticalUsageThreshold * (8/10),
           baseline.percentile75 * (12/10)]) 25000) : Int) : Rat)) =
      amendedNoOverride baseline records now := by
    unfold amendedNoOverride
    cases hdl : (detectRateLimit records now).detectedLimit with
    | none =>
      have hgate : detectionGate (detectRateLimit records now) = false := by
        unfold detectionGate
        rw [hdl]
        simp
      rw [hgate]
      simp only [Bool.false_eq_true, if_false]
      rfl
    | some d =>
      have hd := detectRateLimit_pos records now hdl
      by_cases hcond : (detectRateLimit records now).confidence ≠ .low ∧
          3 ≤ (detectRateLimit records now).sampleCount
      · have hgate : detectionGate (detectRateLimit records now) = true := by
          unfold detectionGate
          rw [hdl]
          have hdne : d ≠ 0 := by omega
          simp [hcond.1, hcond.2, hdne]
        rw [hgate]
        simp only [if_true]
        rw [if_pos hcond, safetyMargin_eq _ hcond.2]
        rfl
      · have hgate : detectionGate (detectRateLimit records now) = false := by
          unfold detectionGate
          rw [hdl]
          rcases not_and_or.mp hcond with hx | hx
          · have hlow : (detectRateLimit records now).confidence = .low := by
              by_contra hne
              exact hx hne
            simp [hlow]
          · simp [hx]
        rw [hgate]
        simp only [Bool.false_eq_true, if_false]
        rw [if_neg hcond]
        rfl
  unfold calculateRateLimitEstimate amendedEffectiveRateLimit
  cases customLimit with
  | none =>
    rw [show customLimitActive none = false from rfl]
    simp only [Bool.false_eq_true, if_false]
    exact hno
  | some c =>
    by_cases hc : 0 < c
    · rw [show customLimitActive (some c) = true by simp [customLimitActive, hc]]
      simp [hc]
    · rw [show customLimitActive (some c) = false by simp [customLimitActive, hc]]
      simp only [Bool.false_eq_true, if_false]
      rw [if_neg hc]
      exact hno

/-- C1 counterexample: with three 20000-token limit candidates the detector
returns medium confidence, sample count 3 and detected limit 17000; the
service then applies a 88 percent margin (result 14960), not the 85
percent margin the claim states for exactly 3 medium-confidence samples
(which would give 14450). -/
theorem claim_C1_counterexample :
    (detectRateLimit detectorMediumRecords detectorMediumNow).sampleCount = 3 ∧
      (detectRateLimit detectorMediumRecords detectorMediumNow).confidence = .medium ∧
      (detectRateLimit detectorMediumRecords detectorMediumNow).detectedLimit = some 17000 ∧
      calculateRateLimitEstimate someBaseline detectorMediumRecords none detectorMediumNow
          = 14960 ∧
      jsRound ((17000 : Rat) * (85/100)) = 14450 ∧
      calculateRateLimitEstimate someBaseline detectorMediumRecords none detectorMediumNow ≠
        ((jsRound ((17000 : Rat) * (85/100)) : Int) : Rat) := by
  refine ⟨by decide, by decide, by decide, by decide, by decide, by decide⟩

end UsageMonitor
